import Mathlib

/-!
Verification of the DealGuard asynchronous processing core against its
repository sources.  Pure fragments of the code (risk aggregation, risk
level thresholds, file upload validation) are embedded directly from the
source files; backend components whose Python sources are absent from the
repository snapshot (queue client, worker, repositories, deadline/alert
services) are modelled from the specification, as marked on each
definition.
-/

set_option maxRecDepth 40000

/- ### Risk aggregation (docs/features/proactive-monitoring.md, `calculate_overall_score`) -/

/-- The nearest integer to `a / b`, ties to the even quotient (used with
`a ≥ 0`, `b > 0`).  This is IEEE-754 round-to-nearest-even expressed on
integers: rounding a binary64 significand is rounding the quotient by its
unit in the last place, and the parity of that quotient is the parity of
the significand. -/
def roundHalfEvenDiv (a b : ℤ) : ℤ :=
  let q := a / b
  let r := a % b
  if 2 * r < b then q
  else if b < 2 * r then q + 1
  else if q % 2 = 0 then q else q + 1

/-- Bounded search for the floor base-2 logarithm: starting from the
invariant `p2 = 2 ^ (n + 1)`, climb while `p2 ≤ x` and the fuel lasts. -/
def floorLog2Aux (x : ℤ) : ℤ → ℕ → ℕ → ℕ
  | _, n, 0 => n
  | p2, n, fuel + 1 => if p2 ≤ x then floorLog2Aux x (2 * p2) (n + 1) fuel else n

/-- The largest `n ≤ 100` with `2 ^ n ≤ x`, and 0 when there is none: the
floor base-2 logarithm of a positive integer `x < 2 ^ 101`. -/
def floorLog2 (x : ℤ) : ℕ := floorLog2Aux x 2 0 100

/-- IEEE-754 binary64 rounding of a non-negative value carried as an
integer multiple of `2 ^ (-60)` (exact for every value this development
feeds it, and correct for all `x < 2 ^ 101`).  A value `x * 2 ^ (-60)`
with `2 ^ l ≤ x < 2 ^ (l + 1)` has unit in the last place
`2 ^ (l - 112)`, i.e. `2 ^ (l - 52)` at this scale, so it is rounded to
the nearest such multiple, ties to even; when `l ≤ 52` the value already
fits in 53 significand bits and is returned unchanged. -/
def fl60 (x : ℤ) : ℤ :=
  let l := floorLog2 x
  if l ≤ 52 then x
  else roundHalfEvenDiv x (2 ^ (l - 52)) * 2 ^ (l - 52)

/-- The binary64 value of the Python literal `0.30`, scaled by `2 ^ 60`:
`0.3 ∈ [2 ^ (-2), 2 ^ (-1))` has unit in the last place `2 ^ (-54)`, so
the literal parses to the nearest multiple of `2 ^ (-54)` (ties to even),
then the scale is completed by `2 ^ 6`. -/
def W30_SCALED : ℤ := roundHalfEvenDiv (3 * 2 ^ 54) 10 * 2 ^ 6

/-- The binary64 value of the literal `0.25`, scaled by `2 ^ 60`: `1/4` is
a power of two and parses exactly. -/
def W25_SCALED : ℤ := 2 ^ 58

/-- The binary64 value of the literal `0.20`, scaled by `2 ^ 60`:
`0.2 ∈ [2 ^ (-3), 2 ^ (-2))` has unit in the last place `2 ^ (-55)`, so
the literal parses to the nearest multiple of `2 ^ (-55)` (ties to even),
then the scale is completed by `2 ^ 5`. -/
def W20_SCALED : ℤ := roundHalfEvenDiv (2 ^ 55) 5 * 2 ^ 5

/-- Embeds `calculate_overall_score` from
`docs/features/proactive-monitoring.md` (lines 195-206).  The Python body
is `int(contract_score * 0.30 + partner_score * 0.25 + compliance_score *
0.25 + deadline_score * 0.20)` under IEEE-754 binary64 arithmetic, which
is modelled bit-exactly on integers scaled by `2 ^ 60`: each score
converts to binary64 exactly, each of the four products and the three
left-associated additions is rounded to nearest-even by `fl60`, and
`int(...)` truncates the non-negative result toward zero, i.e. divides
the scaled integer by `2 ^ 60`. -/
def calculate_overall_score (contract_score partner_score compliance_score deadline_score : ℕ) : ℤ :=
  let t1 := fl60 (contract_score * W30_SCALED)
  let t2 := fl60 (partner_score * W25_SCALED)
  let t3 := fl60 (compliance_score * W25_SCALED)
  let t4 := fl60 (deadline_score * W20_SCALED)
  fl60 (fl60 (fl60 (t1 + t2) + t3) + t4) / 2 ^ 60

/-- The spec sentence `overall = round(Σ weight·category)` taken literally:
rounding instead of the code's truncation.  Spelled out over ℚ for
comparison with `calculate_overall_score`. -/
def overall_round_spec (contract_score partner_score compliance_score deadline_score : ℕ) : ℤ :=
  round ((30 * contract_score + 25 * partner_score + 25 * compliance_score
    + 20 * deadline_score : ℚ) / 100)

/-- Embeds the Risk Levels table of
`docs/features/proactive-monitoring.md` (lines 210-213), identical to the
Risiko-Bewertung table of `docs/features/contract-analysis.md` (lines
43-48): 0-25 low, 26-50 medium, 51-75 high, 76-100 critical. -/
def risk_level_doc (score : ℕ) : String :=
  if score ≤ 25 then "low"
  else if score ≤ 50 then "medium"
  else if score ≤ 75 then "high"
  else "critical"

/- ### Risk level thresholds (frontend) -/

/-- Embeds `getRiskColor` from `frontend/src/app/proaktiv/page.tsx`
(lines 32-37): strict thresholds 30/60/80 mapping a score to a colour
class; the same page labels the identical bands Niedriges/Mittleres/
Erhöhtes/Kritisches Risiko (low/medium/high/critical). -/
def getRiskColor (score : ℤ) : String :=
  if score < 30 then "text-green-600"
  else if score < 60 then "text-yellow-600"
  else if score < 80 then "text-orange-500"
  else "text-red-600"

/-- Embeds the `check.score` colour ternary from
`frontend/src/app/partner/[id]/page.tsx` (lines 305-309):
`score <= 30 ? green : score <= 60 ? yellow : red` — three bands with
non-strict bounds and no orange band at all. -/
def partnerCheckScoreColor (score : ℤ) : String :=
  if score ≤ 30 then "text-green-600"
  else if score ≤ 60 then "text-yellow-600"
  else "text-red-600"

/-- The claim's threshold function taken literally from the spec words:
low if s ≤ 30, medium if 30 < s ≤ 60, high if 60 < s ≤ 80, critical if
s > 80. -/
def riskLevelSpec (score : ℤ) : String :=
  if score ≤ 30 then "low"
  else if score ≤ 60 then "medium"
  else if score ≤ 80 then "high"
  else "critical"

/-- The colour class the frontend uses for each risk level name, read off
the bands of `getRiskColor` and the adjacent label ternary in
`frontend/src/app/proaktiv/page.tsx`. -/
def colorOfLevel (level : String) : String :=
  if level = "low" then "text-green-600"
  else if level = "medium" then "text-yellow-600"
  else if level = "high" then "text-orange-500"
  else "text-red-600"

/- ### Task Queue Gateway (modelled) -/

/-- Job status as in the data model: `pending → processing → {completed | failed}`. -/
inductive JobStatus where
  | pending
  | processing
  | completed
  | failed
deriving DecidableEq, Repr

/-- The statuses `completed` and `failed` are terminal. -/
def JobStatus.isTerminal : JobStatus → Bool
  | .completed => true
  | .failed => true
  | _ => false

/-- An `AnalysisJob` row: target entity id, tenant id, status, retry count. -/
structure AnalysisJob where
  jobId : ℕ
  entityId : ℕ
  tenantId : ℕ
  status : JobStatus
  retryCount : ℕ
deriving DecidableEq, Repr

/-- Modelled from the spec: the queue client
(`backend/src/dealguard/infrastructure/queue/client.py`, referenced by
ADR-003 but absent from the repository snapshot) looks up a non-terminal
job for the target entity before admitting a new one. -/
def findActiveJob (jobs : List AnalysisJob) (entity : ℕ) : Option AnalysisJob :=
  jobs.find? (fun j => j.entityId == entity && !j.status.isTerminal)

/-- Modelled from the spec: `enqueue(entityId, tenantId, jobKind)` returns
the existing job handle when a non-terminal job exists for the entity,
otherwise creates a fresh job in `pending`.  `newId` stands for the id the
store would assign to a freshly created job. -/
def enqueue (jobs : List AnalysisJob) (entity tenant newId : ℕ) : ℕ × List AnalysisJob :=
  match findActiveJob jobs entity with
  | some j => (j.jobId, jobs)
  | none => (newId, ⟨newId, entity, tenant, .pending, 0⟩ :: jobs)

/-- Number of non-terminal (pending/processing) jobs for an entity. -/
def activeJobCount (jobs : List AnalysisJob) (entity : ℕ) : ℕ :=
  (jobs.filter (fun j => j.entityId == entity && !j.status.isTerminal)).length

/-- Number of jobs in `processing` for an entity. -/
def processingJobCount (jobs : List AnalysisJob) (entity : ℕ) : ℕ :=
  (jobs.filter (fun j => j.entityId == entity && j.status == .processing)).length

/- ### Tenant-scoped persistence (modelled) -/

/-- The per-request tenant context set by the middleware (ADR-002). -/
structure TenantContext where
  organizationId : ℕ
  userId : ℕ
deriving DecidableEq, Repr

/-- A persisted row: every table carries `organization_id` (ADR-002). -/
structure TenantRow where
  rowId : ℕ
  organizationId : ℕ
  payload : ℕ
deriving DecidableEq, Repr

/-- The rows of one tenant inside a store. -/
def tenantRows (db : List TenantRow) (org : ℕ) : List TenantRow :=
  db.filter (fun r => r.organizationId == org)

/-- Embeds `BaseRepository.get` from the ADR-002 snippet
(`docs/architecture/002-multi-tenant.md`, lines 37-45): every lookup
filters on the row id and on the tenant context's organization id. -/
def repoGet (ctx : TenantContext) (db : List TenantRow) (id : ℕ) : Option TenantRow :=
  db.find? (fun r => r.rowId == id && r.organizationId == ctx.organizationId)

/-- Modelled from the spec: the tenant-scoped `list` operation of the
persistence interface (§6), always tenant-filtered; the repository file
`backend/src/dealguard/infrastructure/database/repositories/base.py` is
absent from the snapshot. -/
def repoList (ctx : TenantContext) (db : List TenantRow) : List TenantRow :=
  tenantRows db ctx.organizationId

/-- Modelled from the spec: tenant-scoped `create` — the new row is stamped
with the ambient context's organization id. -/
def repoCreate (ctx : TenantContext) (db : List TenantRow) (id payload : ℕ) : List TenantRow :=
  ⟨id, ctx.organizationId, payload⟩ :: db

/-- Modelled from the spec: tenant-scoped `update` — only a row with the
given id owned by the ambient tenant is rewritten. -/
def repoUpdate (ctx : TenantContext) (db : List TenantRow) (id payload : ℕ) : List TenantRow :=
  db.map (fun r =>
    if r.rowId == id && r.organizationId == ctx.organizationId then
      ⟨r.rowId, r.organizationId, payload⟩
    else r)

/- ### Worker Executor retry loop (modelled) -/

/-- Outcome of one handler attempt: success, or a transient
(network/timeout class) failure. -/
inductive AttemptOutcome where
  | ok
  | transientError
deriving DecidableEq, Repr

/-- Maximum retries, 3, from ADR-003 (`docs/architecture/003-async-ai-processing.md`, line 100). -/
def WORKER_MAX_RETRIES : ℕ := 3

/-- Modelled from the spec: exponential backoff — the delay before
re-queueing doubles with each attempt. -/
def backoffDelay (attempt : ℕ) : ℕ := 2 ^ attempt

/-- The record a finished job run leaves behind. -/
structure JobRunResult where
  status : JobStatus
  retryCount : ℕ
  lastError : Option String
  backoffsUsed : List ℕ
deriving DecidableEq, Repr

/-- Modelled from the spec: the worker's bounded retry loop
(`backend/src/dealguard/infrastructure/queue/worker.py` is absent from the
snapshot).  Each transient failure consumes one unit of the attempt budget
and schedules an exponential backoff; an exhausted budget is a terminal
`failed` with reason `"timeout"`.  The recursion is structural on the
budget, so the loop is bounded by construction. -/
def runWithRetries (handler : ℕ → AttemptOutcome) : ℕ → ℕ → List ℕ → JobRunResult
  | 0, attempt, delays => ⟨.failed, attempt, some "timeout", delays.reverse⟩
  | budget + 1, attempt, delays =>
    match handler attempt with
    | .ok => ⟨.completed, attempt, none, delays.reverse⟩
    | .transientError => runWithRetries handler budget (attempt + 1) (backoffDelay attempt :: delays)

/-- Modelled from the spec: executing a job runs the handler with the
configured maximum attempt count. -/
def executeJob (handler : ℕ → AttemptOutcome) : JobRunResult :=
  runWithRetries handler WORKER_MAX_RETRIES 0 []

/- ### Deadline Extractor (modelled) -/

/-- Deadline kinds from the data model. -/
inductive DeadlineType where
  | termination_notice
  | auto_renewal
  | payment_due
  | contract_end
  | other
deriving DecidableEq, Repr

/-- Status values of a `ContractDeadline`. -/
inductive DeadlineStatus where
  | active
  | handled
  | dismissed
deriving DecidableEq, Repr

/-- A `ContractDeadline` row as in
`docs/features/proactive-monitoring.md` (lines 66-78); the date is a day
number and the AI confidence an exact rational in [0,1]. -/
structure ContractDeadline where
  contractId : ℕ
  deadline_type : DeadlineType
  deadline_date : ℕ
  confidence : ℚ
  is_verified : Bool
  status : DeadlineStatus
  source_clause : String
deriving DecidableEq, Repr

/-- One deadline produced by a fresh extraction run. -/
structure ExtractedDeadline where
  dtype : DeadlineType
  ddate : ℕ
  confidence : ℚ
  clause : String
deriving DecidableEq, Repr

/-- Modelled from the spec: a freshly extracted deadline is inserted with
the extractor's confidence, `is_verified = false` and status `active`. -/
def insertExtracted (contractId : ℕ) (e : ExtractedDeadline) : ContractDeadline :=
  ⟨contractId, e.dtype, e.ddate, e.confidence, false, .active, e.clause⟩

/-- Modelled from the spec: `extract_deadlines_job` re-run semantics
(`backend/src/dealguard/domain/proactive/deadline_service.py` is absent
from the snapshot) — all currently unverified deadlines of the contract
are removed, the new extraction output is inserted, verified rows are left
untouched. -/
def replaceUnverified (rows : List ContractDeadline) (contractId : ℕ)
    (extracted : List ExtractedDeadline) : List ContractDeadline :=
  rows.filter (fun d => !(d.contractId == contractId && !d.is_verified))
    ++ extracted.map (insertExtracted contractId)

/- ### Alert Engine (modelled) -/

/-- Source kinds of a `ProactiveAlert`. -/
inductive AlertSourceType where
  | contract
  | partner
  | compliance
deriving DecidableEq, Repr

/-- Alert severities. -/
inductive AlertSeverity where
  | info
  | warning
  | critical
deriving DecidableEq, Repr

/-- Alert lifecycle statuses. -/
inductive AlertStatus where
  | new
  | seen
  | in_progress
  | resolved
  | dismissed
deriving DecidableEq, Repr

/-- The alert statuses `resolved` and `dismissed` are terminal. -/
def AlertStatus.isTerminal : AlertStatus → Bool
  | .resolved => true
  | .dismissed => true
  | _ => false

/-- A `ProactiveAlert` row, keyed by (source, window); `snoozed_until` is a
deferred-visibility flag, not a status of its own. -/
structure ProactiveAlert where
  source_type : AlertSourceType
  source_id : ℕ
  window : ℕ
  severity : AlertSeverity
  status : AlertStatus
  snoozed_until : Option ℕ
deriving DecidableEq, Repr

/-- Is there a non-terminal alert with this (source, window) key? -/
def hasOpenAlert (alerts : List ProactiveAlert) (stype : AlertSourceType)
    (sid window : ℕ) : Bool :=
  alerts.any (fun a =>
    a.source_type == stype && a.source_id == sid && a.window == window
      && !a.status.isTerminal)

/-- An alert the daily evaluation wants to raise. -/
structure AlertCandidate where
  stype : AlertSourceType
  sid : ℕ
  window : ℕ
  severity : AlertSeverity
deriving DecidableEq, Repr

/-- Modelled from the spec: idempotent alert creation — before inserting,
check for an existing non-terminal alert with the same (source, window)
key; if present, do nothing
(`backend/src/dealguard/domain/proactive/alert_service.py` is absent from
the snapshot). -/
def insertAlertIfAbsent (alerts : List ProactiveAlert) (c : AlertCandidate) : List ProactiveAlert :=
  if hasOpenAlert alerts c.stype c.sid c.window then alerts
  else ⟨c.stype, c.sid, c.window, c.severity, .new, none⟩ :: alerts

/-- Modelled from the spec: one daily evaluation run (`check_deadlines_job`)
raising each candidate alert through the idempotent insert. -/
def runAlertEvaluation (alerts : List ProactiveAlert) (cands : List AlertCandidate) : List ProactiveAlert :=
  cands.foldl insertAlertIfAbsent alerts

/-- Modelled from the spec: the hourly wake pass on one alert — a snooze
timestamp that has elapsed (`snoozed_until ≤ now`) is cleared. -/
def wakeAlert (now : ℕ) (a : ProactiveAlert) : ProactiveAlert :=
  match a.snoozed_until with
  | some t => if t ≤ now then { a with snoozed_until := none } else a
  | none => a

/-- Modelled from the spec: `wake_snoozed_alerts_job` scans all alerts and
clears every elapsed snooze flag. -/
def wakeSnoozedAlerts (now : ℕ) (alerts : List ProactiveAlert) : List ProactiveAlert :=
  alerts.map (wakeAlert now)

/-- An alert is visible in active views when it is non-terminal and its
snooze flag is clear. -/
def isActivelyVisible (a : ProactiveAlert) : Bool :=
  !a.status.isTerminal && a.snoozed_until == none

/- ### Risk score clamping (modelled) -/

/-- Modelled from the spec: any AI-returned `risk_score` outside [0,100] is
clamped before storage (the analysis pipeline source is absent from the
snapshot). -/
def clamp_risk_score (s : ℤ) : ℤ := max 0 (min 100 s)

/- ### FileUpload validation (frontend/src/components/contracts/FileUpload.tsx) -/

/-- Default of the `maxSize` prop (in MB) of the FileUpload component. -/
def FILE_UPLOAD_DEFAULT_MAX_SIZE_MB : ℕ := 50

/-- The `validTypes` array of `validateFile`. -/
def validUploadTypes : List String :=
  ["application/pdf",
   "application/vnd.openxmlformats-officedocument.wordprocessingml.document"]

/-- A chosen file as far as `validateFile` inspects it. -/
structure UploadFile where
  size : ℕ
  type : String
deriving DecidableEq, Repr

/-- Embeds `validateFile` from the FileUpload component: a file larger than
`maxSize` MB or with a MIME type outside `validTypes` yields an error
message, any other file yields `none`. -/
def validateFile (maxSize : ℕ) (file : UploadFile) : Option String :=
  let maxBytes := maxSize * 1024 * 1024
  if file.size > maxBytes then
    some ("Datei ist zu groß. Maximal " ++ toString maxSize ++ " MB erlaubt.")
  else if !(validUploadTypes.contains file.type) then
    some "Nur PDF und DOCX Dateien werden unterstützt."
  else
    none

/-- The state `handleFile` leaves behind: the error message, the selected
file, and whether `onFileSelect` was invoked. -/
structure FileSelectionResult where
  error : Option String
  selectedFile : Option UploadFile
  onFileSelectCalled : Bool
deriving DecidableEq, Repr

/-- Embeds `handleFile` from the FileUpload component: a validation error
is surfaced and the callback skipped; a valid file clears the error, is
selected, and is handed to `onFileSelect`. -/
def handleFile (maxSize : ℕ) (file : UploadFile) : FileSelectionResult :=
  match validateFile maxSize file with
  | some e => ⟨some e, none, false⟩
  | none => ⟨none, some file, true⟩

/- ### Theorems -/

/-- Round-half-even never returns a negative result on a non-negative
dividend and positive divisor. -/
lemma roundHalfEvenDiv_nonneg (a b : ℤ) (ha : 0 ≤ a) (hb : 0 < b) :
    0 ≤ roundHalfEvenDiv a b := by
  have hq : 0 ≤ a / b := Int.ediv_nonneg ha hb.le
  simp only [roundHalfEvenDiv]
  split_ifs <;> omega

/-- Binary64 rounding preserves non-negativity. -/
lemma fl60_nonneg (x : ℤ) (hx : 0 ≤ x) : 0 ≤ fl60 x := by
  simp only [fl60]
  split_ifs with h
  · exact hx
  · exact mul_nonneg
      (roundHalfEvenDiv_nonneg x (2 ^ (floorLog2 x - 52)) hx (by positivity))
      (by positivity)

/-- C3 (corrected): the aggregator truncates the IEEE-double weighted sum
rather than rounding it.  Amended claim: `calculate_overall_score`
applies int() truncation to the binary64 evaluation of
`0.30·contracts + 0.25·partners + 0.25·compliance + 0.20·deadlines`, not
`round`, and the result is always non-negative; the example inputs
(80, 40, 60, 20) yield 53, which the frontend `getRiskColor` places in
the yellow/medium band while the docs' Risk Levels table classifies it
as "high".  Truncation differs from rounding already at (3, 0, 0, 0)
(truncating 0.899... to 0), and the double arithmetic differs from the
exact weighted sum already at (6, 0, 0, 1), where the exact sum is 2.0
but accumulated rounding lands just below it and int() gives 1. -/
theorem overall_score_truncates_weighted_sum
    (contracts partners compliance deadlines : ℕ) :
    calculate_overall_score 80 40 60 20 = 53
    ∧ getRiskColor 53 = "text-yellow-600"
    ∧ risk_level_doc 53 = "high"
    ∧ calculate_overall_score 3 0 0 0 = 0
    ∧ calculate_overall_score 6 0 0 1 = 1
    ∧ ⌊(6 * (30 : ℚ) / 100 + 0 * 25 / 100 + 0 * 25 / 100 + 1 * 20 / 100)⌋ = 2
    ∧ 0 ≤ calculate_overall_score contracts partners compliance deadlines := by
  refine ⟨by decide, by decide, by decide, by decide, by decide, by norm_num, ?_⟩
  simp only [calculate_overall_score]
  apply Int.ediv_nonneg _ (by positivity)
  apply fl60_nonneg
  have h30 : (0 : ℤ) ≤ W30_SCALED := by decide
  have h25 : (0 : ℤ) ≤ W25_SCALED := by decide
  have h20 : (0 : ℤ) ≤ W20_SCALED := by decide
  have t1 := fl60_nonneg (contracts * W30_SCALED) (by positivity)
  have t2 := fl60_nonneg (partners * W25_SCALED) (by positivity)
  have t3 := fl60_nonneg (compliance * W25_SCALED) (by positivity)
  have t4 := fl60_nonneg (deadlines * W20_SCALED) (by positivity)
  have s1 := fl60_nonneg _ (add_nonneg t1 t2)
  have s2 := fl60_nonneg _ (add_nonneg s1 t3)
  exact add_nonneg s2 t4

/-- C3 counterexample: at inputs (3, 0, 0, 0) the code computes 0 while
the claimed `round` formula gives 1. -/
theorem overall_score_not_round_cex :
    calculate_overall_score 3 0 0 0 ≠ overall_round_spec 3 0 0 0 := by
  have h1 : calculate_overall_score 3 0 0 0 = 0 := by decide
  have h2 : overall_round_spec 3 0 0 0 = 1 := by
    unfold overall_round_spec
    norm_num [round_eq]
  rw [h1, h2]
  decide

/-- C4 (corrected): the frontend `getRiskColor` uses strict thresholds —
green/low for s < 30, yellow/medium for 30 ≤ s < 60, orange/high for
60 ≤ s < 80, red/critical for s ≥ 80 — while the partner detail page
colours check scores with a different three-band function (green for
s ≤ 30, yellow for 30 < s ≤ 60, red for s > 60), so the threshold
function is not shared between contract and partner scores. -/
theorem risk_threshold_characterization (s : ℤ) :
    (getRiskColor s = "text-green-600" ↔ s < 30)
    ∧ (getRiskColor s = "text-yellow-600" ↔ 30 ≤ s ∧ s < 60)
    ∧ (getRiskColor s = "text-orange-500" ↔ 60 ≤ s ∧ s < 80)
    ∧ (getRiskColor s = "text-red-600" ↔ 80 ≤ s)
    ∧ (partnerCheckScoreColor s = "text-green-600" ↔ s ≤ 30)
    ∧ (partnerCheckScoreColor s = "text-yellow-600" ↔ 30 < s ∧ s ≤ 60)
    ∧ (partnerCheckScoreColor s = "text-red-600" ↔ 60 < s)
    ∧ partnerCheckScoreColor 70 ≠ getRiskColor 70 := by
  refine ⟨?_, ?_, ?_, ?_, ?_, ?_, ?_, by decide⟩ <;>
    simp only [getRiskColor, partnerCheckScoreColor] <;>
    split_ifs <;> simp_all <;> omega

/-- C4 counterexample: at score 30 the claimed thresholds give level low
(green), but `getRiskColor` returns the yellow/medium class; the partner
page ternary disagrees with `getRiskColor` at the same input. -/
theorem risk_thresholds_cex :
    getRiskColor 30 ≠ colorOfLevel (riskLevelSpec 30)
    ∧ partnerCheckScoreColor 30 ≠ getRiskColor 30 := by
  decide

/-- C9: the persisted risk score is the input clamped to [0,100] —
negative inputs store 0, inputs above 100 store 100, in-range inputs are
stored unchanged, and every stored value lies in [0,100]. -/
theorem risk_score_clamped (s : ℤ) :
    (s < 0 → clamp_risk_score s = 0)
    ∧ (100 < s → clamp_risk_score s = 100)
    ∧ (0 ≤ s → s ≤ 100 → clamp_risk_score s = s)
    ∧ 0 ≤ clamp_risk_score s ∧ clamp_risk_score s ≤ 100 := by
  unfold clamp_risk_score
  omega

/-- C10: `handleFile` invokes `onFileSelect` exactly when the file is at
most `maxSize` MB and its MIME type is PDF or DOCX; otherwise an error
message is set and nothing is selected, and the error is set exactly when
the callback is skipped.  The component's default limit is 50 MB. -/
theorem file_upload_select_iff_valid (maxSize : ℕ) (file : UploadFile) :
    ((handleFile maxSize file).onFileSelectCalled = true
      ↔ file.size ≤ maxSize * 1024 * 1024
        ∧ (file.type = "application/pdf"
          ∨ file.type = "application/vnd.openxmlformats-officedocument.wordprocessingml.document"))
    ∧ (handleFile maxSize file).error.isSome = !(handleFile maxSize file).onFileSelectCalled
    ∧ ((handleFile maxSize file).selectedFile
        = if (handleFile maxSize file).onFileSelectCalled then some file else none)
    ∧ FILE_UPLOAD_DEFAULT_MAX_SIZE_MB = 50 := by
  simp only [handleFile, validateFile, validUploadTypes, FILE_UPLOAD_DEFAULT_MAX_SIZE_MB]
  split_ifs <;> (simp_all [List.contains_cons]; try tauto)

/-- The retry loop performs at most `budget` further attempts: the final
retry count never exceeds the starting attempt index plus the budget. -/
lemma runWithRetries_retryCount_le (g : ℕ → AttemptOutcome) :
    ∀ (budget attempt : ℕ) (delays : List ℕ),
      (runWithRetries g budget attempt delays).retryCount ≤ attempt + budget := by
  intro budget
  induction budget with
  | zero =>
    intro attempt delays
    simp [runWithRetries]
  | succ b ih =>
    intro attempt delays
    rw [runWithRetries]
    cases g attempt with
    | ok => simp
    | transientError =>
      have := ih (attempt + 1) (backoffDelay attempt :: delays)
      simpa using this.trans (by omega)

/-- C5: a handler that fails transiently on every attempt drives the job
through exactly `WORKER_MAX_RETRIES` (3) attempts with exponentially
growing backoff delays 1, 2, 4 and ends in the terminal status `failed`
with reason `"timeout"`; and for every handler whatsoever the retry count
is bounded by the configured maximum, so the loop never runs
indefinitely. -/
theorem worker_bounded_retries_then_timeout (handler : ℕ → AttemptOutcome)
    (h : ∀ n, handler n = .transientError) :
    executeJob handler = ⟨.failed, WORKER_MAX_RETRIES, some "timeout", [1, 2, 4]⟩
    ∧ ∀ g : ℕ → AttemptOutcome, (executeJob g).retryCount ≤ WORKER_MAX_RETRIES := by
  constructor
  · show runWithRetries handler WORKER_MAX_RETRIES 0 [] = _
    rw [WORKER_MAX_RETRIES]
    rw [runWithRetries, h 0]
    rw [runWithRetries, h 1]
    rw [runWithRetries, h 2]
    rw [runWithRetries]
    simp [backoffDelay]
  · intro g
    simpa [WORKER_MAX_RETRIES] using runWithRetries_retryCount_le g WORKER_MAX_RETRIES 0 []

/-- C5 witness: the always-transient handler concretely reaches `failed`
with reason `"timeout"` after 3 attempts. -/
theorem worker_bounded_retries_witness :
    executeJob (fun _ => .transientError)
      = ⟨.failed, WORKER_MAX_RETRIES, some "timeout", [1, 2, 4]⟩
    ∧ ∀ g : ℕ → AttemptOutcome, (executeJob g).retryCount ≤ WORKER_MAX_RETRIES :=
  worker_bounded_retries_then_timeout (fun _ => .transientError) (fun _ => rfl)

/-- A job in `processing` is non-terminal, so an entity's processing jobs
are counted among its active jobs. -/
lemma processingJobCount_le_activeJobCount (jobs : List AnalysisJob) (entity : ℕ) :
    processingJobCount jobs entity ≤ activeJobCount jobs entity := by
  unfold processingJobCount activeJobCount
  rw [← List.countP_eq_length_filter, ← List.countP_eq_length_filter]
  apply List.countP_mono_left
  intro j _ hj
  simp only [Bool.and_eq_true, beq_iff_eq] at hj ⊢
  refine ⟨hj.1, ?_⟩
  rw [hj.2]
  rfl

/-- C1: enqueue is idempotent per entity — an existing non-terminal job is
returned as-is and the store is unchanged; a new `pending` job is created
only when no non-terminal job exists; the at-most-one-active-job invariant
is preserved; no enqueue ever changes the number of `processing` jobs, and
processing jobs are always bounded by active jobs, so at most one job per
entity is in `processing`. -/
theorem enqueue_dedup_single_active (jobs : List AnalysisJob) (entity tenant newId : ℕ) :
    (∀ j, findActiveJob jobs entity = some j →
        enqueue jobs entity tenant newId = (j.jobId, jobs))
    ∧ (findActiveJob jobs entity = none →
        enqueue jobs entity tenant newId
          = (newId, ⟨newId, entity, tenant, .pending, 0⟩ :: jobs))
    ∧ (activeJobCount jobs entity ≤ 1 →
        activeJobCount (enqueue jobs entity tenant newId).2 entity ≤ 1)
    ∧ (∀ e, processingJobCount (enqueue jobs entity tenant newId).2 e
        = processingJobCount jobs e)
    ∧ (∀ e, processingJobCount (enqueue jobs entity tenant newId).2 e
        ≤ activeJobCount (enqueue jobs entity tenant newId).2 e) := by
  refine ⟨?_, ?_, ?_, ?_, fun e => processingJobCount_le_activeJobCount _ e⟩
  · intro j hj
    unfold enqueue
    rw [hj]
  · intro h
    unfold enqueue
    rw [h]
  · intro hle
    unfold enqueue
    cases hfa : findActiveJob jobs entity with
    | some j => simpa using hle
    | none =>
      have hall := List.find?_eq_none.mp hfa
      have hnil : jobs.filter (fun j => j.entityId == entity && !j.status.isTerminal) = [] := by
        rw [List.filter_eq_nil_iff]
        exact hall
      simp only [activeJobCount, List.filter_cons]
      rw [hnil]
      simp [JobStatus.isTerminal]
  · intro e
    unfold enqueue
    cases hfa : findActiveJob jobs entity with
    | some j => rfl
    | none =>
      simp only [processingJobCount, List.filter_cons]
      have : ((⟨newId, entity, tenant, .pending, 0⟩ : AnalysisJob).entityId == e
          && (⟨newId, entity, tenant, JobStatus.pending, 0⟩ : AnalysisJob).status == JobStatus.processing) = false := by
        simp
      rw [this]
      simp

/-- C6: after re-running deadline extraction for a contract, the contract's
unverified deadlines are exactly the rows built from the new extraction
output (each inserted with `is_verified = false` and the extractor's
confidence), and the verified deadlines of the whole store are exactly
what they were before — no verified row is dropped, altered or
duplicated, regardless of the new extraction output. -/
theorem reextraction_replaces_unverified_preserves_verified
    (rows : List ContractDeadline) (contractId : ℕ) (extracted : List ExtractedDeadline) :
    (replaceUnverified rows contractId extracted).filter
        (fun d => d.contractId == contractId && !d.is_verified)
      = extracted.map (insertExtracted contractId)
    ∧ (replaceUnverified rows contractId extracted).filter (fun d => d.is_verified)
      = rows.filter (fun d => d.is_verified)
    ∧ (∀ e, (insertExtracted contractId e).is_verified = false
        ∧ (insertExtracted contractId e).confidence = e.confidence
        ∧ (insertExtracted contractId e).contractId = contractId) := by
  refine ⟨?_, ?_, fun e => ⟨rfl, rfl, rfl⟩⟩
  · unfold replaceUnverified
    rw [List.filter_append]
    have h1 : (rows.filter (fun d => !(d.contractId == contractId && !d.is_verified))).filter
        (fun d => d.contractId == contractId && !d.is_verified) = [] := by
      rw [List.filter_filter, List.filter_eq_nil_iff]
      intro d _
      cases hc : (d.contractId == contractId && !d.is_verified) <;> simp [hc]
    have h2 : (extracted.map (insertExtracted contractId)).filter
        (fun d => d.contractId == contractId && !d.is_verified)
        = extracted.map (insertExtracted contractId) := by
      rw [List.filter_eq_self]
      intro d hd
      rcases List.mem_map.mp hd with ⟨e, _, rfl⟩
      simp [insertExtracted]
    rw [h1, h2, List.nil_append]
  · unfold replaceUnverified
    rw [List.filter_append]
    have h1 : (rows.filter (fun d => !(d.contractId == contractId && !d.is_verified))).filter
        (fun d => d.is_verified) = rows.filter (fun d => d.is_verified) := by
      rw [List.filter_filter]
      apply List.filter_congr
      intro d _
      cases hv : d.is_verified <;> simp [hv]
    have h2 : (extracted.map (insertExtracted contractId)).filter
        (fun d => d.is_verified) = [] := by
      rw [List.filter_eq_nil_iff]
      intro d hd
      rcases List.mem_map.mp hd with ⟨e, _, rfl⟩
      simp [insertExtracted]
    rw [h1, h2, List.append_nil]

/-- Inserting a candidate guarantees an open alert under its own key. -/
lemma hasOpenAlert_insert_self (alerts : List ProactiveAlert) (c : AlertCandidate) :
    hasOpenAlert (insertAlertIfAbsent alerts c) c.stype c.sid c.window = true := by
  unfold insertAlertIfAbsent
  by_cases h : hasOpenAlert alerts c.stype c.sid c.window = true
  · rw [if_pos h]
    exact h
  · rw [if_neg h]
    unfold hasOpenAlert
    simp [AlertStatus.isTerminal]

/-- The idempotent insert never closes an alert: any key already open
stays open. -/
lemma hasOpenAlert_insert_mono (alerts : List ProactiveAlert) (c : AlertCandidate)
    (stype : AlertSourceType) (sid window : ℕ)
    (h : hasOpenAlert alerts stype sid window = true) :
    hasOpenAlert (insertAlertIfAbsent alerts c) stype sid window = true := by
  unfold insertAlertIfAbsent
  split_ifs
  · exact h
  · unfold hasOpenAlert at h ⊢
    simp only [List.any_cons, Bool.or_eq_true]
    exact Or.inr h

/-- A whole evaluation run never closes an alert either. -/
lemma hasOpenAlert_run_mono (cands : List AlertCandidate) :
    ∀ (alerts : List ProactiveAlert) (stype : AlertSourceType) (sid window : ℕ),
      hasOpenAlert alerts stype sid window = true →
      hasOpenAlert (runAlertEvaluation alerts cands) stype sid window = true := by
  induction cands with
  | nil => intro alerts stype sid window h; exact h
  | cons c rest ih =>
    intro alerts stype sid window h
    exact ih _ _ _ _ (hasOpenAlert_insert_mono alerts c stype sid window h)

/-- After one evaluation run, every evaluated candidate key has an open
alert. -/
lemma run_opens_all (cands : List AlertCandidate) :
    ∀ alerts : List ProactiveAlert, ∀ c ∈ cands,
      hasOpenAlert (runAlertEvaluation alerts cands) c.stype c.sid c.window = true := by
  induction cands with
  | nil => intro alerts c hc; cases hc
  | cons d rest ih =>
    intro alerts c hc
    rcases List.mem_cons.mp hc with rfl | hmem
    · exact hasOpenAlert_run_mono rest _ _ _ _ (hasOpenAlert_insert_self alerts c)
    · exact ih _ c hmem

/-- A run whose candidate keys are all already open changes nothing. -/
lemma run_noop_of_all_open (cands : List AlertCandidate) :
    ∀ alerts : List ProactiveAlert,
      (∀ c ∈ cands, hasOpenAlert alerts c.stype c.sid c.window = true) →
      runAlertEvaluation alerts cands = alerts := by
  induction cands with
  | nil => intro alerts _; rfl
  | cons d rest ih =>
    intro alerts hall
    have hd := hall d (List.mem_cons_self d rest)
    have hstep : insertAlertIfAbsent alerts d = alerts := by
      unfold insertAlertIfAbsent
      rw [if_pos hd]
    show runAlertEvaluation (insertAlertIfAbsent alerts d) rest = alerts
    rw [hstep]
    exact ih alerts (fun c hc => hall c (List.mem_cons_of_mem d hc))

/-- C7: daily alert evaluation is idempotent per (source, window) key — a
key with an existing non-terminal alert is never inserted again, and
running the same evaluation twice in a row leaves exactly the alert set of
a single run. -/
theorem alert_evaluation_idempotent (alerts : List ProactiveAlert)
    (cands : List AlertCandidate) :
    (∀ c, hasOpenAlert alerts c.stype c.sid c.window = true →
        insertAlertIfAbsent alerts c = alerts)
    ∧ runAlertEvaluation (runAlertEvaluation alerts cands) cands
        = runAlertEvaluation alerts cands := by
  constructor
  · intro c hc
    unfold insertAlertIfAbsent
    rw [if_pos hc]
  · exact run_noop_of_all_open cands _ (fun c hc => run_opens_all cands alerts c hc)

/-- C8: for an alert snoozed until `T` and otherwise non-terminal, any wake
pass run at `now ≥ T` clears the snooze flag while leaving the status
untouched, and the woken alert is again visible in active views; the woken
alert is in the wake pass output whenever the original was in the input. -/
theorem wake_pass_clears_elapsed_snooze (alerts : List ProactiveAlert)
    (a : ProactiveAlert) (T now : ℕ)
    (hmem : a ∈ alerts) (hsnooze : a.snoozed_until = some T)
    (hterm : a.status.isTerminal = false) (helapsed : T ≤ now) :
    (wakeAlert now a).snoozed_until = none
    ∧ (wakeAlert now a).status = a.status
    ∧ isActivelyVisible (wakeAlert now a) = true
    ∧ wakeAlert now a ∈ wakeSnoozedAlerts now alerts := by
  have hwake : wakeAlert now a = { a with snoozed_until := none } := by
    unfold wakeAlert
    rw [hsnooze]
    simp [helapsed]
  refine ⟨by rw [hwake], by rw [hwake], ?_, ?_⟩
  · rw [hwake]
    unfold isActivelyVisible
    simp [hterm]
  · exact List.mem_map.mpr ⟨a, hmem, rfl⟩

/-- C8 witness: a concrete `warning` alert snoozed until day 5 is woken by
a pass at day 7 and becomes visible again. -/
theorem wake_pass_witness :
    (wakeAlert 7 ⟨.contract, 1, 30, .warning, .seen, some 5⟩).snoozed_until = none
    ∧ (wakeAlert 7 ⟨.contract, 1, 30, .warning, .seen, some 5⟩).status
        = (⟨.contract, 1, 30, .warning, .seen, some 5⟩ : ProactiveAlert).status
    ∧ isActivelyVisible (wakeAlert 7 ⟨.contract, 1, 30, .warning, .seen, some 5⟩) = true
    ∧ wakeAlert 7 ⟨.contract, 1, 30, .warning, .seen, some 5⟩
        ∈ wakeSnoozedAlerts 7 [⟨.contract, 1, 30, .warning, .seen, some 5⟩] :=
  wake_pass_clears_elapsed_snooze [⟨.contract, 1, 30, .warning, .seen, some 5⟩]
    ⟨.contract, 1, 30, .warning, .seen, some 5⟩ 5 7
    (List.mem_singleton.mpr rfl) rfl rfl (by decide)

/-- A `find?` whose predicate entails the filter predicate may equally be
run on the filtered list: elements dropped by the filter could never have
been found. -/
lemma find?_eq_find?_filter {α : Type} (p q : α → Bool)
    (himp : ∀ a, p a = true → q a = true) :
    ∀ l : List α, l.find? p = (l.filter q).find? p := by
  intro l
  induction l with
  | nil => rfl
  | cons a t ih =>
    by_cases hq : q a = true
    · rw [List.filter_cons_of_pos hq]
      by_cases hp : p a = true
      · rw [List.find?_cons_of_pos _ hp, List.find?_cons_of_pos _ hp]
      · rw [List.find?_cons_of_neg _ (by simpa using hp),
          List.find?_cons_of_neg _ (by simpa using hp)]
        exact ih
    · have hp : ¬ p a = true := fun hpa => hq (himp a hpa)
      rw [List.filter_cons_of_neg (by simpa using hq),
        List.find?_cons_of_neg _ (by simpa using hp)]
      exact ih

/-- Filtering one tenant's rows commutes with a map that preserves each
row's organization id. -/
lemma tenantRows_map (f : TenantRow → TenantRow)
    (hf : ∀ r, (f r).organizationId = r.organizationId) (org : ℕ) :
    ∀ db : List TenantRow, tenantRows (db.map f) org = (tenantRows db org).map f := by
  intro db
  induction db with
  | nil => rfl
  | cons r t ih =>
    show tenantRows (f r :: t.map f) org = _
    unfold tenantRows at ih ⊢
    rw [List.filter_cons, List.filter_cons]
    by_cases h : (r.organizationId == org) = true
    · rw [if_pos (by simpa [hf r] using h), if_pos h]
      simp only [List.map_cons, ih]
    · rw [if_neg (by simpa [hf r] using h), if_neg h]
      exact ih

/-- C2 (spec-modelled): tenant non-interference of the persistence layer.
For any two stores that agree on tenant `t`'s rows, every operation run
under tenant context `t` returns identical results (`get`, `list`) and
produces stores again agreeing on `t`'s rows (`create`, `update`); and on
a single store, `create` and `update` leave every other tenant's rows
exactly unchanged. -/
theorem repository_tenant_isolation (ctx : TenantContext) (db1 db2 : List TenantRow)
    (id payload : ℕ)
    (hagree : tenantRows db1 ctx.organizationId = tenantRows db2 ctx.organizationId) :
    repoGet ctx db1 id = repoGet ctx db2 id
    ∧ repoList ctx db1 = repoList ctx db2
    ∧ tenantRows (repoCreate ctx db1 id payload) ctx.organizationId
        = tenantRows (repoCreate ctx db2 id payload) ctx.organizationId
    ∧ tenantRows (repoUpdate ctx db1 id payload) ctx.organizationId
        = tenantRows (repoUpdate ctx db2 id payload) ctx.organizationId
    ∧ (∀ other, other ≠ ctx.organizationId →
        tenantRows (repoCreate ctx db1 id payload) other = tenantRows db1 other
        ∧ tenantRows (repoUpdate ctx db1 id payload) other = tenantRows db1 other) := by
  have himp : ∀ r : TenantRow,
      (r.rowId == id && r.organizationId == ctx.organizationId) = true →
      (r.organizationId == ctx.organizationId) = true := by
    intro r h
    exact (Bool.and_eq_true _ _ |>.mp h).2
  refine ⟨?_, ?_, ?_, ?_, ?_⟩
  · unfold repoGet
    rw [find?_eq_find?_filter _ _ himp db1, find?_eq_find?_filter _ _ himp db2]
    show ((tenantRows db1 ctx.organizationId).find? _) = ((tenantRows db2 ctx.organizationId).find? _)
    rw [hagree]
  · unfold repoList
    exact hagree
  · unfold repoCreate tenantRows
    rw [List.filter_cons, List.filter_cons]
    simp only [beq_self_eq_true, if_pos]
    show _ :: tenantRows db1 ctx.organizationId = _ :: tenantRows db2 ctx.organizationId
    rw [hagree]
  · unfold repoUpdate
    rw [tenantRows_map _ (fun r => by split <;> rfl) _ db1,
      tenantRows_map _ (fun r => by split <;> rfl) _ db2]
    rw [hagree]
  · intro other hother
    constructor
    · unfold repoCreate tenantRows
      rw [List.filter_cons]
      have : ((⟨id, ctx.organizationId, payload⟩ : TenantRow).organizationId == other) = false := by
        simpa using fun h => hother h.symm
      rw [this]
      simp
    · unfold repoUpdate
      rw [tenantRows_map _ (fun r => by split <;> rfl) _ db1]
      have hfix : ∀ r ∈ tenantRows db1 other,
          (if r.rowId == id && r.organizationId == ctx.organizationId then
            (⟨r.rowId, r.organizationId, payload⟩ : TenantRow) else r) = r := by
        intro r hr
        have horg : r.organizationId = other := by
          have := (List.mem_filter.mp hr).2
          simpa using this
        have : (r.organizationId == ctx.organizationId) = false := by
          simp [horg]
          exact fun h => hother (h ▸ rfl)
        simp [this]
      calc (tenantRows db1 other).map _ = (tenantRows db1 other).map (fun r => r) :=
            List.map_congr_left hfix
        _ = tenantRows db1 other := List.map_id _

/-- C2 witness: two concrete stores agreeing on tenant 1 but differing on
tenant 2 are indistinguishable to every operation run under tenant 1, and
mutations under tenant 1 leave the other tenants' rows unchanged. -/
theorem repository_tenant_isolation_witness :
    repoGet ⟨1, 1⟩ [⟨1, 1, 10⟩] 1 = repoGet ⟨1, 1⟩ [⟨1, 1, 10⟩, ⟨2, 2, 20⟩] 1
    ∧ repoList ⟨1, 1⟩ [⟨1, 1, 10⟩] = repoList ⟨1, 1⟩ [⟨1, 1, 10⟩, ⟨2, 2, 20⟩]
    ∧ tenantRows (repoCreate ⟨1, 1⟩ [⟨1, 1, 10⟩] 1 5) 1
        = tenantRows (repoCreate ⟨1, 1⟩ [⟨1, 1, 10⟩, ⟨2, 2, 20⟩] 1 5) 1
    ∧ tenantRows (repoUpdate ⟨1, 1⟩ [⟨1, 1, 10⟩] 1 5) 1
        = tenantRows (repoUpdate ⟨1, 1⟩ [⟨1, 1, 10⟩, ⟨2, 2, 20⟩] 1 5) 1
    ∧ (∀ other, other ≠ 1 →
        tenantRows (repoCreate ⟨1, 1⟩ [⟨1, 1, 10⟩] 1 5) other
          = tenantRows [⟨1, 1, 10⟩] other
        ∧ tenantRows (repoUpdate ⟨1, 1⟩ [⟨1, 1, 10⟩] 1 5) other
          = tenantRows [⟨1, 1, 10⟩] other) :=
  repository_tenant_isolation ⟨1, 1⟩ [⟨1, 1, 10⟩] [⟨1, 1, 10⟩, ⟨2, 2, 20⟩] 1 5 (by decide)
